import Mathlib

/-!
# Verification of the fusion_bench test-time-adaptation merging core

Shallow embedding of the core components of the repository
(`fusion_bench/compat/method/adamerging/clip_task_wise_adamerging.py` and
`fusion_bench/method/dawe/dawe_for_clip.py`) together with proofs of the
specified properties: the infinite data loader, the checkpoint schedule of
the adaptation loop, the per-step structure of the adaptation loop, the
zero-shot head cache, the logit computation, the hidden-size inference,
the optimizer frame property, head memoization and the class-level
attribute aliasing.

The file has two parts: first the definitions translated from the source,
then the theorems about them.
-/

namespace FusionBench

/-! ## Part 1: definitions -/

/-! ### Infinite data loader

Embedding of `InfiniteDataLoader` from
`compat/method/adamerging/clip_task_wise_adamerging.py` (lines 22-36).
A finite data loader is a list of batches; an iterator over it is the list
of batches not yet yielded.  `next` translates `__next__`: it tries the
current iterator, and on `StopIteration` re-creates the iterator from the
loader and takes one element from it; a `StopIteration` raised by the fresh
iterator (empty loader) is not caught and propagates to the caller, which we
model with `Except Unit`. -/

structure InfiniteDataLoader (α : Type) where
  data_loader : List α
  data_iter : List α

/-- `InfiniteDataLoader.__init__`: `self.data_iter = iter(data_loader)`. -/
def InfiniteDataLoader.init {α : Type} (loader : List α) : InfiniteDataLoader α :=
  { data_loader := loader, data_iter := loader }

/-- `InfiniteDataLoader.__next__`.  `Except.error ()` models an uncaught
`StopIteration` escaping to the caller. -/
def InfiniteDataLoader.next {α : Type} (s : InfiniteDataLoader α) :
    Except Unit (α × InfiniteDataLoader α) :=
  match s.data_iter with
  | x :: rest => Except.ok (x, { s with data_iter := rest })
  | [] =>
    -- StopIteration: `self.data_iter = iter(self.data_loader)` then
    -- `data = next(self.data_iter)` with no surrounding handler
    match s.data_loader with
    | x :: rest => Except.ok (x, { data_loader := s.data_loader, data_iter := rest })
    | [] => Except.error ()

/-- Iterate `next` a given number of times, collecting the batches returned;
any uncaught `StopIteration` aborts the whole sequence of calls. -/
def InfiniteDataLoader.nextN {α : Type} (s : InfiniteDataLoader α) :
    Nat → Except Unit (List α × InfiniteDataLoader α)
  | 0 => Except.ok ([], s)
  | n + 1 =>
    match s.next with
    | Except.error e => Except.error e
    | Except.ok (x, s') =>
      match s'.nextN n with
      | Except.error e => Except.error e
      | Except.ok (xs, s'') => Except.ok (x :: xs, s'')

/-! ### Checkpoint schedule of the adaptation loop

Embedding of the save logic of `DataAdaptiveWeightEnsemblingForCLIP.run`
(`method/dawe/dawe_for_clip.py`, lines 206-236).  We record, in order, the
0-indexed steps at which `self.fabric.save(... f"model_{step_idx}.pt" ...)`
is executed.  Inside the loop a save happens when
`(step_idx + 1) % save_interval == 0`; after the loop, `step_idx` still
holds `max_steps - 1` and one more save happens when
`(step_idx + 1) % save_interval != 0`. -/

def runSavedSteps (max_steps save_interval : Nat) : List Nat :=
  let loopSaves :=
    (List.range max_steps).foldl
      (fun acc step_idx =>
        if (step_idx + 1) % save_interval = 0 then acc ++ [step_idx] else acc) []
  let step_idx := max_steps - 1
  if (step_idx + 1) % save_interval ≠ 0 then loopSaves ++ [step_idx] else loopSaves

/-- The save points demanded by the spec: every step with
`(step+1) % save_interval == 0`, plus one extra final save when the last
step is not itself a save point. -/
def specSavedSteps (max_steps save_interval : Nat) : List Nat :=
  ((List.range max_steps).filter (fun step => (step + 1) % save_interval == 0)) ++
    (if max_steps % save_interval ≠ 0 then [max_steps - 1] else [])

/-! ### One iteration of the test-time adaptation loop

Embedding of the loop body of `DataAdaptiveWeightEnsemblingForCLIP.run`
(lines 206-223).  The network, the logits and the entropy loss are
abstracted into a loss function `lossOf task_idx batch` (the entropy loss of
the logits of `batch` against the head of task number `task_idx`), and the
combined `optimizer.zero_grad(); backward; optimizer.step()` into one
application of `optStep` to the current parameters and the summed loss. -/

structure TTAState (P B : Type) where
  params : P
  streams : List (InfiniteDataLoader B)
  logs : List (Nat × ℚ)
  optimizerSteps : Nat

/-- The inner `for task_idx, task_name in enumerate(modelpool.model_names)`
loop (lines 207-212): for each task in enumeration order, draw one batch
from that task's stream, compute the per-task entropy loss, and accumulate
`losses += loss` starting from `losses = 0`. -/
def taskLossLoop {B : Type} (lossOf : Nat → B → ℚ) :
    Nat → ℚ → List (InfiniteDataLoader B) →
      Except Unit (ℚ × List (InfiniteDataLoader B))
  | _, losses, [] => Except.ok (losses, [])
  | task_idx, losses, s :: rest =>
    match s.next with
    | Except.error e => Except.error e
    | Except.ok (batch, s') =>
      match taskLossLoop lossOf (task_idx + 1) (losses + lossOf task_idx batch) rest with
      | Except.error e => Except.error e
      | Except.ok (total, rest') => Except.ok (total, s' :: rest')

/-- One iteration of the adaptation loop (lines 207-223): run the task loop,
zero gradients, backpropagate the summed loss, take exactly one optimizer
step, and log the scalar loss for this step index. -/
def ttaIteration {P B : Type} (lossOf : Nat → B → ℚ) (optStep : P → ℚ → P)
    (step_idx : Nat) (st : TTAState P B) : Except Unit (TTAState P B) :=
  match taskLossLoop lossOf 0 0 st.streams with
  | Except.error e => Except.error e
  | Except.ok (losses, streams') =>
    Except.ok
      { params := optStep st.params losses
        streams := streams'
        logs := st.logs ++ [(step_idx, losses)]
        optimizerSteps := st.optimizerSteps + 1 }

/-- Spec-side: the batches obtained by drawing exactly one batch from each
stream, in order; `none` if some stream cannot deliver. -/
def drawAll {B : Type} : List (InfiniteDataLoader B) → Option (List B)
  | [] => some []
  | s :: rest =>
    match s.next with
    | Except.error _ => none
    | Except.ok (b, _) => (drawAll rest).map (b :: ·)

/-- Spec-side: every stream advanced by exactly one `next` call. -/
def advanceAll {B : Type} : List (InfiniteDataLoader B) → Option (List (InfiniteDataLoader B))
  | [] => some []
  | s :: rest =>
    match s.next with
    | Except.error _ => none
    | Except.ok (_, s') => (advanceAll rest).map (s' :: ·)

/-- Spec-side: the sum over tasks, in enumeration order starting at the
given task index, of the per-task entropy loss of the drawn batch. -/
def sumLosses {B : Type} (lossOf : Nat → B → ℚ) : Nat → List B → ℚ
  | _, [] => 0
  | i, b :: bs => lossOf i b + sumLosses lossOf (i + 1) bs

/-! ### Zero-shot head cache

Embedding of the per-task cache logic of
`CLIPTaskWiseAdaMergingAlgorithm.on_test_time_adaptation_start`
(`compat/method/adamerging/clip_task_wise_adamerging.py`, lines 93-108).
The filesystem is a finite map from paths to stored weight artifacts; the
construction of the weights from the task's classnames and templates by the
CLIP text encoder (`HFCLIPClassifier`, outside the embedded core) is
abstracted into `computeHead`. -/

structure FileSystem (W : Type) where
  files : List (String × W)

def FileSystem.read {W : Type} (fs : FileSystem W) (path : String) : Option W :=
  (fs.files.find? (fun f => f.1 == path)).map Prod.snd

def FileSystem.write {W : Type} (fs : FileSystem W) (path : String) (w : W) :
    FileSystem W :=
  { files := (path, w) :: fs.files.filter (fun f => f.1 != path) }

/-- `os.path.basename` for POSIX paths: the part after the last `/`
(empty for a path ending in `/`). -/
def basename (p : String) : String :=
  String.mk (p.toList.foldl (fun acc c => if c = '/' then [] else acc ++ [c]) [])

/-- The deterministic cache path built at lines 94-97:
`os.path.join(cache_dir, f"{os.path.basename(pretrained_path)}_{task}_zeroshot_weights.pt")`. -/
def zeroshotCacheFile (cache_dir pretrained_path task : String) : String :=
  cache_dir ++ "/" ++ basename pretrained_path ++ "_" ++ task ++ "_zeroshot_weights.pt"

/-- Lines 98-107: check for the cache file; on a hit load it (the text
encoder is not invoked), otherwise compute the head with the text encoder
and persist it at the cache path.  Returns the weights, the updated file
system and whether the text encoder was invoked. -/
def buildZeroshotHead {W : Type} (computeHead : String → W)
    (fs : FileSystem W) (cache_dir pretrained_path task : String) :
    W × FileSystem W × Bool :=
  let cache_file := zeroshotCacheFile cache_dir pretrained_path task
  match fs.read cache_file with
  | some w => (w, fs, false)
  | none =>
    let w := computeHead task
    (w, fs.write cache_file w, true)

/-! ### Logit computation

Embedding of `CLIPTaskWiseAdaMergingAlgorithm.compute_logits` (lines
114-130) over real vectors.  A batch of pooled image features is a family of
`dp`-dimensional vectors; the frozen `visual_projection`
(`nn.Linear(..., bias=False)`) is a linear map into the `d`-dimensional
embedding space; the per-task head `text_embeds` is a family of `C` class
embeddings.  The elementwise division by `image_embeds.norm(p=2, dim=-1)`
at line 122 divides by zero whenever some image embedding has zero norm
(producing NaNs in the source's tensor arithmetic), which the embedding
models by returning `none`. -/

open Classical in
/-- Lines 114-130 of `compute_logits`: project the pooled features, divide
by the L2 norm, multiply the text-embedding matrix with the transposed
image embeddings scaled by `exp(logit_scale)`, and transpose. -/
noncomputable def compute_logits {B C dp d : Nat}
    (visual_projection : (Fin dp → ℝ) →ₗ[ℝ] EuclideanSpace ℝ (Fin d))
    (logit_scale : ℝ)
    (text_embeds : Fin C → EuclideanSpace ℝ (Fin d))
    (pooled_features : Fin B → (Fin dp → ℝ)) :
    Option (Matrix (Fin B) (Fin C) ℝ) :=
  let image_embeds := fun b => visual_projection (pooled_features b)
  if _h : ∀ b, ‖image_embeds b‖ ≠ 0 then
    let normalized := fun b => ‖image_embeds b‖⁻¹ • image_embeds b
    let logits_per_text : Matrix (Fin C) (Fin B) ℝ :=
      fun c b => (inner (text_embeds c) (normalized b) : ℝ) * Real.exp logit_scale
    some logits_per_text.transpose
  else none

/-- The normalization step at line 122 divides some image embedding by a
zero norm. -/
def normalizationDividesByZero {B dp d : Nat}
    (visual_projection : (Fin dp → ℝ) →ₗ[ℝ] EuclideanSpace ℝ (Fin d))
    (pooled_features : Fin B → (Fin dp → ℝ)) : Prop :=
  ∃ b, ‖visual_projection (pooled_features b)‖ = 0

/-! ### Hidden-size inference of the adaptive merging model

Embedding of `DataAdaptiveWeightEnsemblingForCLIP.__init__` (lines 83-123,
which stores the options without validating `hidden_size`) and of the
inference at lines 134-136 of `load_models`:
`self.hidden_size = dict_feature_extractor.config.hidden_sizes[-1]`.
A missing `hidden_sizes` attribute raises `AttributeError`; `[-1]` on an
empty list raises `IndexError`; neither is a `ConfigurationError`. -/

inductive PyError where
  | attributeError
  | indexError
  | configurationError
deriving DecidableEq

structure FeatureExtractorConfig where
  /-- `none` models a feature-extractor config object without the
  `hidden_sizes` attribute. -/
  hidden_sizes : Option (List Nat)

structure DaweOptions where
  hidden_size : Option Nat
  max_steps : Nat
  save_interval : Nat

/-- `__init__` (lines 83-123): stores the constructor arguments on the
instance; no validation of `hidden_size` is performed, so construction
never raises. -/
def daweInit (hidden_size : Option Nat) (max_steps save_interval : Nat) :
    Except PyError DaweOptions :=
  Except.ok
    { hidden_size := hidden_size, max_steps := max_steps, save_interval := save_interval }

/-- Lines 134-136 of `load_models`: if `hidden_size` is `None`, infer it as
`dict_feature_extractor.config.hidden_sizes[-1]`. -/
def inferHiddenSize (opts : DaweOptions) (cfg : FeatureExtractorConfig) :
    Except PyError Nat :=
  match opts.hidden_size with
  | some h => Except.ok h
  | none =>
    match cfg.hidden_sizes with
    | none => Except.error PyError.attributeError
    | some [] => Except.error PyError.indexError
    | some (h :: t) => Except.ok ((h :: t).getLast (List.cons_ne_nil h t))

/-! ### Optimizer parameter selection and frame property

Embedding of lines 201-203 and 206-216 of
`DataAdaptiveWeightEnsemblingForCLIP.run`: the optimizer is built over
`[p for p in model.parameters() if p.requires_grad]`, and each
`optimizer.step()` mutates exactly the parameters it was built over. -/

structure Param where
  name : String
  value : ℚ
  requires_grad : Bool

/-- Line 201-202: the names of the parameters handed to the optimizer. -/
def optimizerParams (params : List Param) : List String :=
  (params.filter (fun p => p.requires_grad)).map Param.name

/-- One `optimizer.step()`: for each parameter in the optimizer's list, in
order, replace its value by the update the optimizer computed for it;
parameters outside the list are not touched by the optimizer. -/
def optimizerStep (update : String → ℚ → ℚ) (selected : List String)
    (params : List Param) : List Param :=
  selected.foldl
    (fun ps nm =>
      ps.map (fun p =>
        if p.name = nm then { p with value := update p.name p.value } else p))
    params

/-- The adaptation loop's optimizer activity over `n` steps (line 216 runs
once per loop iteration), with a per-step update function. -/
def runOptimizer (update : Nat → String → ℚ → ℚ) (selected : List String)
    (params : List Param) : Nat → List Param
  | 0 => params
  | k + 1 => optimizerStep (update k) selected (runOptimizer update selected params k)

/-- Modelled from the spec: the parameter inventory of the
`DataAdaptiveWeightEnsemblingCLIPVisionModel` built by `load_models`
(its module, `warppers/dawe_model.py`, is not among the sources).  Per the
spec, the base model, the expert models and the projection are frozen
(`requires_grad = False`), and only the mixing coefficients and the gating
network are trainable. -/
def daweModelParameters (base expert projection coeff gate : List (String × ℚ)) :
    List Param :=
  (base.map fun p => Param.mk p.1 p.2 false) ++
    (expert.map fun p => Param.mk p.1 p.2 false) ++
    (projection.map fun p => Param.mk p.1 p.2 false) ++
    (coeff.map fun p => Param.mk p.1 p.2 true) ++
    (gate.map fun p => Param.mk p.1 p.2 true)

/-! ### Zero-shot weights memoization within a process

The in-process store `self.zeroshot_weights[task] = zeroshot_weights`
(line 108) together with the lookup `self.zeroshot_weights[task]` performed
by every `compute_logits` call (line 116). -/

def lookupWeights {W : Type} (m : List (String × W)) (task : String) : Option W :=
  (m.find? (fun p => p.1 == task)).map Prod.snd

/-- Python dict item assignment `m[task] = w`. -/
def storeWeights {W : Type} (m : List (String × W)) (task : String) (w : W) :
    List (String × W) :=
  (task, w) :: m.filter (fun p => p.1 != task)

structure AdaState (W : Type) where
  zeroshot_weights : List (String × W)
  fs : FileSystem W
  encoderCalls : Nat

/-- One iteration of the `for task in self.modelpool.model_names` loop of
`on_test_time_adaptation_start` (lines 93-108): build or load the head and
store it under the task key, counting text-encoder invocations. -/
def adaptationStartTask {W : Type} (computeHead : String → W)
    (cache_dir pretrained_path : String) (st : AdaState W) (task : String) :
    AdaState W :=
  match buildZeroshotHead computeHead st.fs cache_dir pretrained_path task with
  | (w, fs', invoked) =>
    { zeroshot_weights := storeWeights st.zeroshot_weights task w
      fs := fs'
      encoderCalls := st.encoderCalls + (if invoked then 1 else 0) }

/-- `on_test_time_adaptation_start` (lines 93-108) over the task list. -/
def onTestTimeAdaptationStart {W : Type} (computeHead : String → W)
    (cache_dir pretrained_path : String) (tasks : List String) (st : AdaState W) :
    AdaState W :=
  tasks.foldl (adaptationStartTask computeHead cache_dir pretrained_path) st

/-- The head lookup performed by `compute_logits` (line 116): a pure read of
`self.zeroshot_weights[task]`; it does not touch the file system or the
text encoder. -/
def computeLogitsHeadLookup {W : Type} (st : AdaState W) (task : String) :
    Option W × AdaState W :=
  (lookupWeights st.zeroshot_weights task, st)

/-- A sequence of `n` head lookups, threading the algorithm state. -/
def repeatedLookups {W : Type} (st : AdaState W) (task : String) :
    Nat → List (Option W) × AdaState W
  | 0 => ([], st)
  | n + 1 =>
    match computeLogitsHeadLookup st task with
    | (r, st') =>
      match repeatedLookups st' task n with
      | (rs, st'') => (r :: rs, st'')

/-! ### Class-level `zeroshot_weights` attribute

Embedding of the Python attribute semantics relevant to
`CLIPTaskWiseAdaMergingAlgorithm` (lines 39-42 and 108): the class body
evaluates `zeroshot_weights = {}` once, creating a single dict object held
by the class; `__init__` (lines 44-45) never binds an instance attribute of
that name, so attribute resolution on every instance falls through to the
class and `self.zeroshot_weights[task] = w` mutates the shared dict in
place. -/

/-- The mutable heap of dict objects, addressed by object identity. -/
def PyHeap (W : Type) : Type := Nat → List (String × W)

def PyHeap.setItem {W : Type} (h : PyHeap W) (addr : Nat) (task : String) (w : W) :
    PyHeap W :=
  fun a => if a = addr then storeWeights (h a) task w else h a

structure ClassState (W : Type) where
  heap : PyHeap W
  /-- The address of the dict created by the class-body statement
  `zeroshot_weights = {}` (line 42). -/
  classAttrAddr : Nat
  /-- Per-instance `__dict__` entry for `zeroshot_weights`; `none` when the
  instance never bound its own attribute of that name. -/
  instanceAttr : Nat → Option Nat

/-- Python attribute resolution for `self.zeroshot_weights`: the instance
`__dict__` first, the class attribute otherwise. -/
def resolveZeroshotWeightsAttr {W : Type} (st : ClassState W) (inst : Nat) : Nat :=
  (st.instanceAttr inst).getD st.classAttrAddr

/-- `self.zeroshot_weights[task] = w` (line 108): resolve the attribute and
mutate the resolved dict object in place (no instance attribute is bound). -/
def storeHead {W : Type} (st : ClassState W) (inst : Nat) (task : String) (w : W) :
    ClassState W :=
  { st with heap := st.heap.setItem (resolveZeroshotWeightsAttr st inst) task w }

/-- `self.zeroshot_weights[task]` (line 116), read through an instance. -/
def readHead {W : Type} (st : ClassState W) (inst : Nat) (task : String) : Option W :=
  lookupWeights (st.heap (resolveZeroshotWeightsAttr st inst)) task

/-- The state right after the class body ran: one shared empty dict at the
class attribute's address, and no instance bindings. -/
def classCreationState (W : Type) : ClassState W :=
  { heap := fun _ => [], classAttrAddr := 0, instanceAttr := fun _ => none }

/-! ## Part 2: theorems -/

theorem InfiniteDataLoader.next_ok_of_loader_ne_nil {α : Type}
    (s : InfiniteDataLoader α) (h : s.data_loader ≠ [])
    (hiter : s.data_iter.length ≤ s.data_loader.length) :
    ∃ x s', s.next = Except.ok (x, s') ∧ s'.data_loader = s.data_loader ∧
      s'.data_iter.length ≤ s.data_loader.length := by
  cases hA : s.data_iter with
  | cons x rest =>
    refine ⟨x, { s with data_iter := rest }, ?_, rfl, ?_⟩
    · simp [InfiniteDataLoader.next, hA]
    · have := hiter
      rw [hA] at this
      simpa using Nat.le_of_succ_le this
  | nil =>
    cases hB : s.data_loader with
    | nil => exact absurd hB h
    | cons y ys =>
      refine ⟨y, { data_loader := y :: ys, data_iter := ys }, ?_, by simp [hB], ?_⟩
      · simp [InfiniteDataLoader.next, hA, hB]
      · simp [hB]

theorem InfiniteDataLoader.nextN_ok_of_loader_ne_nil {α : Type} (n : Nat) :
    ∀ (s : InfiniteDataLoader α), s.data_loader ≠ [] →
      s.data_iter.length ≤ s.data_loader.length →
      ∃ xs s', s.nextN n = Except.ok (xs, s') ∧ xs.length = n := by
  induction n with
  | zero => intro s _ _; exact ⟨[], s, rfl, rfl⟩
  | succ m ih =>
    intro s h hiter
    obtain ⟨x, s', hnext, hload, hlen⟩ := s.next_ok_of_loader_ne_nil h hiter
    have h' : s'.data_loader ≠ [] := hload ▸ h
    have hiter' : s'.data_iter.length ≤ s'.data_loader.length := by rw [hload]; exact hlen
    obtain ⟨xs, s'', hrec, hxs⟩ := ih s' h' hiter'
    exact ⟨x :: xs, s'', by simp [InfiniteDataLoader.nextN, hnext, hrec], by simp [hxs]⟩

theorem runSavedSteps_foldl_eq_filter (max_steps save_interval : Nat) :
    (List.range max_steps).foldl
      (fun acc step_idx =>
        if (step_idx + 1) % save_interval = 0 then acc ++ [step_idx] else acc) [] =
    (List.range max_steps).filter (fun step => (step + 1) % save_interval == 0) := by
  have key : ∀ (l : List Nat) (acc : List Nat),
      l.foldl (fun acc step_idx =>
        if (step_idx + 1) % save_interval = 0 then acc ++ [step_idx] else acc) acc =
      acc ++ l.filter (fun step => (step + 1) % save_interval == 0) := by
    intro l
    induction l with
    | nil => intro acc; simp
    | cons x xs ih =>
      intro acc
      rw [List.foldl_cons]
      by_cases hx : (x + 1) % save_interval = 0
      · rw [if_pos hx, ih, List.filter_cons]
        simp [hx]
      · rw [if_neg hx, ih, List.filter_cons]
        simp [hx]
  simpa using key (List.range max_steps) []

theorem runSavedSteps_eq_specSavedSteps (max_steps save_interval : Nat)
    (h1 : 1 ≤ max_steps) :
    runSavedSteps max_steps save_interval = specSavedSteps max_steps save_interval := by
  simp only [runSavedSteps, specSavedSteps, runSavedSteps_foldl_eq_filter,
    Nat.sub_add_cancel h1]
  by_cases hdiv : max_steps % save_interval = 0
  · simp [hdiv]
  · simp [hdiv]

theorem count_finalStep_runSavedSteps (max_steps save_interval : Nat)
    (h1 : 1 ≤ max_steps) :
    (runSavedSteps max_steps save_interval).count (max_steps - 1) = 1 := by
  rw [runSavedSteps_eq_specSavedSteps max_steps save_interval h1]
  unfold specSavedSteps
  rw [List.count_append]
  by_cases hdiv : max_steps % save_interval = 0
  · rw [if_neg (by simpa using hdiv)]
    have hmem : max_steps - 1 ∈
        (List.range max_steps).filter (fun step => (step + 1) % save_interval == 0) := by
      rw [List.mem_filter]
      constructor
      · exact List.mem_range.mpr (Nat.sub_lt h1 Nat.one_pos)
      · rw [Nat.sub_add_cancel h1]
        simpa using hdiv
    have hnodup : ((List.range max_steps).filter
        (fun step => (step + 1) % save_interval == 0)).Nodup :=
      (List.nodup_range max_steps).filter _
    simp [List.count_eq_one_of_mem hnodup hmem]
  · rw [if_pos (by simpa using hdiv)]
    have hnot : max_steps - 1 ∉
        (List.range max_steps).filter (fun step => (step + 1) % save_interval == 0) := by
      rw [List.mem_filter]
      rintro ⟨-, hp⟩
      rw [Nat.sub_add_cancel h1] at hp
      exact hdiv (by simpa using hp)
    rw [List.count_eq_zero.mpr hnot]
    simp

/-- C1: for every run of the adaptation loop with `1 ≤ max_steps` and
`1 ≤ save_interval`, a checkpoint is saved at exactly the steps where
`(step + 1) % save_interval == 0`, plus one extra final save after the loop
when the last step `max_steps - 1` is not itself a save point, and the step
index of the final adapted state occurs exactly once in the save schedule. -/
theorem checkpoint_schedule_correct (max_steps save_interval : Nat)
    (h1 : 1 ≤ max_steps) (_h2 : 1 ≤ save_interval) :
    runSavedSteps max_steps save_interval = specSavedSteps max_steps save_interval ∧
    (runSavedSteps max_steps save_interval).count (max_steps - 1) = 1 :=
  ⟨runSavedSteps_eq_specSavedSteps max_steps save_interval h1,
   count_finalStep_runSavedSteps max_steps save_interval h1⟩

/-- C1 witness: with `max_steps = 10` and `save_interval = 3` the checkpoints
are written exactly at the 0-indexed steps 2, 5, 8 and 9. -/
theorem checkpoint_schedule_correct_witness :
    runSavedSteps 10 3 = [2, 5, 8, 9] ∧
    (runSavedSteps 10 3 = specSavedSteps 10 3 ∧ (runSavedSteps 10 3).count 9 = 1) :=
  ⟨by decide, checkpoint_schedule_correct 10 3 (by decide) (by decide)⟩

/-- C2 counterexample: for a finite source of length `L = 0` (an empty
loader), the very first call to `next()` raises an uncaught `StopIteration`
instead of returning a batch, refuting the claim for arbitrary finite
sources. -/
theorem infinite_loader_empty_source_raises :
    (InfiniteDataLoader.init ([] : List Nat)).next = Except.error () := rfl

/-- C2 (amended to nonempty sources): for any nonempty finite source, every
call to `next()` returns a batch without raising — any number `n` of
consecutive calls (in particular `10 * L`) all succeed — and a call on an
exhausted iterator transparently restarts the loader and returns the first
batch of the new pass. -/
theorem infinite_loader_never_raises {α : Type} (loader : List α)
    (h : loader ≠ []) (n : Nat) :
    (∃ xs s', (InfiniteDataLoader.init loader).nextN n = Except.ok (xs, s') ∧
      xs.length = n) ∧
    InfiniteDataLoader.next { data_loader := loader, data_iter := [] } =
      Except.ok (loader.head h,
        { data_loader := loader, data_iter := loader.tail }) := by
  constructor
  · exact InfiniteDataLoader.nextN_ok_of_loader_ne_nil n
      (InfiniteDataLoader.init loader) h (by simp [InfiniteDataLoader.init])
  · cases loader with
    | nil => exact absurd rfl h
    | cons x xs => rfl

/-- C2 witness: a source of length `L = 3` sustains `10 * L = 30` consecutive
calls, and restarting from the exhausted iterator yields the first batch. -/
theorem infinite_loader_never_raises_witness :
    (∃ xs s',
        (InfiniteDataLoader.init ([1, 2, 3] : List Nat)).nextN 30 =
          Except.ok (xs, s') ∧ xs.length = 30) ∧
    InfiniteDataLoader.next { data_loader := ([1, 2, 3] : List Nat), data_iter := [] } =
      Except.ok (1, { data_loader := [1, 2, 3], data_iter := [2, 3] }) :=
  infinite_loader_never_raises [1, 2, 3] (by decide) 30

theorem taskLossLoop_spec {B : Type} (lossOf : Nat → B → ℚ) :
    ∀ (streams : List (InfiniteDataLoader B)),
      (∀ s ∈ streams, ∃ b s', s.next = Except.ok (b, s')) →
      ∀ (t0 : Nat) (l0 : ℚ),
        ∃ batches streams',
          drawAll streams = some batches ∧
          advanceAll streams = some streams' ∧
          taskLossLoop lossOf t0 l0 streams =
            Except.ok (l0 + sumLosses lossOf t0 batches, streams') := by
  intro streams
  induction streams with
  | nil =>
    intro _ t0 l0
    exact ⟨[], [], rfl, rfl, by simp [taskLossLoop, sumLosses]⟩
  | cons s rest ih =>
    intro h t0 l0
    obtain ⟨b, s', hnext⟩ := h s (List.mem_cons_self s rest)
    obtain ⟨batches, streams', hdraw, hadv, hloop⟩ :=
      ih (fun x hx => h x (List.mem_cons_of_mem s hx)) (t0 + 1) (l0 + lossOf t0 b)
    refine ⟨b :: batches, s' :: streams', ?_, ?_, ?_⟩
    · simp [drawAll, hnext, hdraw]
    · simp [advanceAll, hnext, hadv]
    · simp [taskLossLoop, hnext, hloop, sumLosses, add_assoc]

/-- C3: each iteration of the adaptation loop, for each task in the fixed
enumeration order, draws exactly one batch from that task's stream (each
stream is advanced by exactly one `next` call), computes that task's entropy
loss on the drawn batch, and sums the losses over all tasks; it then takes
exactly one optimizer step on the summed loss and logs the scalar loss for
that step index. -/
theorem tta_iteration_structure {P B : Type} (lossOf : Nat → B → ℚ)
    (optStep : P → ℚ → P) (step_idx : Nat) (st : TTAState P B)
    (h : ∀ s ∈ st.streams, s.data_loader ≠ [] ∨ s.data_iter ≠ []) :
    ∃ batches streams',
      drawAll st.streams = some batches ∧
      advanceAll st.streams = some streams' ∧
      ttaIteration lossOf optStep step_idx st =
        Except.ok
          { params := optStep st.params (sumLosses lossOf 0 batches)
            streams := streams'
            logs := st.logs ++ [(step_idx, sumLosses lossOf 0 batches)]
            optimizerSteps := st.optimizerSteps + 1 } := by
  have hex : ∀ s ∈ st.streams, ∃ b s', s.next = Except.ok (b, s') := by
    intro s hs
    rcases h s hs with hl | hi
    · cases hA : s.data_iter with
      | cons x rest =>
        exact ⟨x, { s with data_iter := rest }, by simp [InfiniteDataLoader.next, hA]⟩
      | nil =>
        cases hB : s.data_loader with
        | nil => exact absurd hB hl
        | cons y ys =>
          exact ⟨y, { data_loader := y :: ys, data_iter := ys },
            by simp [InfiniteDataLoader.next, hA, hB]⟩
    · cases hA : s.data_iter with
      | nil => exact absurd hA hi
      | cons x rest =>
        exact ⟨x, { s with data_iter := rest }, by simp [InfiniteDataLoader.next, hA]⟩
  obtain ⟨batches, streams', hdraw, hadv, hloop⟩ :=
    taskLossLoop_spec lossOf st.streams hex 0 0
  refine ⟨batches, streams', hdraw, hadv, ?_⟩
  simp [ttaIteration, hloop]

/-- C3 witness: a concrete two-task state, with per-task losses summed over
both tasks, both streams advanced once, one optimizer step and one log
entry. -/
theorem tta_iteration_structure_witness :
    (∀ s ∈ (TTAState.mk (0 : ℚ) [InfiniteDataLoader.init [(5 : ℚ)],
        InfiniteDataLoader.init [7, 8]] [] 0).streams,
      s.data_loader ≠ [] ∨ s.data_iter ≠ []) ∧
    ∃ batches streams',
      drawAll (TTAState.mk (0 : ℚ) [InfiniteDataLoader.init [(5 : ℚ)],
        InfiniteDataLoader.init [7, 8]] [] 0).streams = some batches ∧
      advanceAll (TTAState.mk (0 : ℚ) [InfiniteDataLoader.init [(5 : ℚ)],
        InfiniteDataLoader.init [7, 8]] [] 0).streams = some streams' ∧
      ttaIteration (fun i b => b + i) (fun p l => p - l) 0
          (TTAState.mk (0 : ℚ) [InfiniteDataLoader.init [(5 : ℚ)],
            InfiniteDataLoader.init [7, 8]] [] 0) =
        Except.ok
          { params := (fun (p : ℚ) (l : ℚ) => p - l) 0
              (sumLosses (fun i b => b + i) 0 batches)
            streams := streams'
            logs := [] ++ [(0, sumLosses (fun i b => b + i) 0 batches)]
            optimizerSteps := 0 + 1 } := by
  have h : ∀ s ∈ (TTAState.mk (0 : ℚ) [InfiniteDataLoader.init [(5 : ℚ)],
      InfiniteDataLoader.init [7, 8]] [] 0).streams,
      s.data_loader ≠ [] ∨ s.data_iter ≠ [] := by
    decide
  exact ⟨h, tta_iteration_structure (fun i b => b + i) (fun p l => p - l) 0 _ h⟩

/-- C4: building the zero-shot head of a task first checks the cache file at
the deterministic path `{cache_dir}/{basename}_{task}_zeroshot_weights.pt`;
on a hit the weights are loaded from the file, the text encoder is not
invoked and the file system is untouched; on a miss the weights are computed
from the task's classnames and templates by the text encoder and persisted
at that exact path before being used. -/
theorem zeroshot_head_cache_behavior {W : Type} (computeHead : String → W)
    (fs : FileSystem W) (cache_dir pretrained_path task : String) :
    (∀ w, fs.read (zeroshotCacheFile cache_dir pretrained_path task) = some w →
        buildZeroshotHead computeHead fs cache_dir pretrained_path task =
          (w, fs, false)) ∧
    (fs.read (zeroshotCacheFile cache_dir pretrained_path task) = none →
        buildZeroshotHead computeHead fs cache_dir pretrained_path task =
          (computeHead task,
            fs.write (zeroshotCacheFile cache_dir pretrained_path task)
              (computeHead task),
            true) ∧
        (fs.write (zeroshotCacheFile cache_dir pretrained_path task)
              (computeHead task)).read
            (zeroshotCacheFile cache_dir pretrained_path task) =
          some (computeHead task)) := by
  constructor
  · intro w hw
    simp [buildZeroshotHead, hw]
  · intro hw
    refine ⟨by simp [buildZeroshotHead, hw], ?_⟩
    simp [FileSystem.read, FileSystem.write]

/-- C4 witness: for backbone path `openai/clip-vit-base-patch32` and task
`svhn`, a miss computes and persists at the expected path, and a hit loads
without invoking the encoder. -/
theorem zeroshot_head_cache_behavior_witness :
    zeroshotCacheFile "cache" "openai/clip-vit-base-patch32" "svhn" =
      "cache/clip-vit-base-patch32_svhn_zeroshot_weights.pt" ∧
    buildZeroshotHead (fun _ => (5 : ℕ)) ⟨[]⟩ "cache"
        "openai/clip-vit-base-patch32" "svhn" =
      (5, FileSystem.write ⟨[]⟩
        (zeroshotCacheFile "cache" "openai/clip-vit-base-patch32" "svhn") 5, true) ∧
    buildZeroshotHead (fun _ => (5 : ℕ))
        ⟨[(zeroshotCacheFile "cache" "openai/clip-vit-base-patch32" "svhn", 7)]⟩
        "cache" "openai/clip-vit-base-patch32" "svhn" =
      (7, ⟨[(zeroshotCacheFile "cache" "openai/clip-vit-base-patch32" "svhn", 7)]⟩,
        false) := by
  refine ⟨by decide, ?_, ?_⟩
  · exact ((zeroshot_head_cache_behavior (fun _ => (5 : ℕ)) ⟨[]⟩ "cache"
      "openai/clip-vit-base-patch32" "svhn").2 (by decide)).1
  · exact (zeroshot_head_cache_behavior (fun _ => (5 : ℕ))
      ⟨[(zeroshotCacheFile "cache" "openai/clip-vit-base-patch32" "svhn", 7)]⟩ "cache"
      "openai/clip-vit-base-patch32" "svhn").1 7 (by decide)

/-- C5: for a batch of `B` images and a head with `C` classes whose class
embeddings have norm at most one, and image embeddings of nonzero norm,
`compute_logits` returns a `(B, C)` logits matrix whose `(b, c)` entry is
the inner product of class embedding `c` with the L2-normalized image
embedding `b` scaled by `exp(logit_scale)`, and every entry lies in
`[-exp(logit_scale), exp(logit_scale)]` with `exp(logit_scale) > 0`. -/
theorem compute_logits_shape_and_bounds {B C dp d : Nat}
    (visual_projection : (Fin dp → ℝ) →ₗ[ℝ] EuclideanSpace ℝ (Fin d))
    (logit_scale : ℝ)
    (text_embeds : Fin C → EuclideanSpace ℝ (Fin d))
    (pooled_features : Fin B → (Fin dp → ℝ))
    (htext : ∀ c, ‖text_embeds c‖ ≤ 1)
    (himg : ∀ b, ‖visual_projection (pooled_features b)‖ ≠ 0) :
    ∃ L : Matrix (Fin B) (Fin C) ℝ,
      compute_logits visual_projection logit_scale text_embeds pooled_features =
        some L ∧
      (∀ b c, L b c =
        (inner (text_embeds c)
            (‖visual_projection (pooled_features b)‖⁻¹ •
              visual_projection (pooled_features b)) : ℝ) *
          Real.exp logit_scale) ∧
      (∀ b c, |L b c| ≤ Real.exp logit_scale) ∧ 0 < Real.exp logit_scale := by
  refine ⟨fun b c =>
      (inner (text_embeds c)
          (‖visual_projection (pooled_features b)‖⁻¹ •
            visual_projection (pooled_features b)) : ℝ) * Real.exp logit_scale,
    ?_, fun b c => rfl, ?_, Real.exp_pos _⟩
  · simp only [compute_logits]
    rw [dif_pos himg]
    rfl
  · intro b c
    set v := visual_projection (pooled_features b) with hv
    have hnorm : ‖‖v‖⁻¹ • v‖ = 1 := by
      rw [norm_smul, norm_inv, norm_norm]
      exact inv_mul_cancel₀ (himg b)
    calc |(inner (text_embeds c) (‖v‖⁻¹ • v) : ℝ) * Real.exp logit_scale|
        = |(inner (text_embeds c) (‖v‖⁻¹ • v) : ℝ)| * Real.exp logit_scale := by
          rw [abs_mul, abs_of_pos (Real.exp_pos _)]
      _ ≤ ‖text_embeds c‖ * ‖‖v‖⁻¹ • v‖ * Real.exp logit_scale :=
          mul_le_mul_of_nonneg_right (abs_real_inner_le_norm _ _) (Real.exp_pos _).le
      _ = ‖text_embeds c‖ * Real.exp logit_scale := by rw [hnorm, mul_one]
      _ ≤ 1 * Real.exp logit_scale :=
          mul_le_mul_of_nonneg_right (htext c) (Real.exp_pos _).le
      _ = Real.exp logit_scale := one_mul _

/-- C5 witness: a one-image, one-class instance with a unit class embedding
and a nonzero image embedding. -/
theorem compute_logits_shape_and_bounds_witness :
    ((∀ c : Fin 1,
        ‖(fun _ : Fin 1 =>
            EuclideanSpace.single (0 : Fin 1) (1 : ℝ)) c‖ ≤ 1) ∧
      (∀ b : Fin 1,
        ‖(WithLp.linearEquiv 2 ℝ (Fin 1 → ℝ)).symm.toLinearMap
            ((fun _ : Fin 1 => fun _ : Fin 1 => (2 : ℝ)) b)‖ ≠ 0)) ∧
    ∃ L : Matrix (Fin 1) (Fin 1) ℝ,
      compute_logits (WithLp.linearEquiv 2 ℝ (Fin 1 → ℝ)).symm.toLinearMap 0
          (fun _ : Fin 1 => EuclideanSpace.single (0 : Fin 1) (1 : ℝ))
          (fun _ : Fin 1 => fun _ : Fin 1 => (2 : ℝ)) = some L ∧
      (∀ b c, |L b c| ≤ Real.exp 0) := by
  have htext : ∀ c : Fin 1,
      ‖(fun _ : Fin 1 => EuclideanSpace.single (0 : Fin 1) (1 : ℝ)) c‖ ≤ 1 := by
    intro c
    rw [EuclideanSpace.norm_single]
    simp
  have himg : ∀ b : Fin 1,
      ‖(WithLp.linearEquiv 2 ℝ (Fin 1 → ℝ)).symm.toLinearMap
          ((fun _ : Fin 1 => fun _ : Fin 1 => (2 : ℝ)) b)‖ ≠ 0 := by
    intro b
    rw [norm_ne_zero_iff]
    intro hzero
    have h0 := congrFun hzero 0
    norm_num at h0
  obtain ⟨L, hL, _, hbound, _⟩ := compute_logits_shape_and_bounds
    (WithLp.linearEquiv 2 ℝ (Fin 1 → ℝ)).symm.toLinearMap 0
    (fun _ : Fin 1 => EuclideanSpace.single (0 : Fin 1) (1 : ℝ))
    (fun _ : Fin 1 => fun _ : Fin 1 => (2 : ℝ)) htext himg
  exact ⟨⟨htext, himg⟩, L, hL, hbound⟩

/-- C6 counterexample: a batch containing an image whose embedding is the
zero vector makes the normalization step at line 122 divide by a zero norm
(there is no guard), and `compute_logits` yields no valid logits for it. -/
theorem normalization_no_guard_counterexample :
    normalizationDividesByZero
      (WithLp.linearEquiv 2 ℝ (Fin 1 → ℝ)).symm.toLinearMap
      (fun _ : Fin 1 => fun _ : Fin 1 => (0 : ℝ)) ∧
    compute_logits (WithLp.linearEquiv 2 ℝ (Fin 1 → ℝ)).symm.toLinearMap 0
      (fun _ : Fin 1 => EuclideanSpace.single (0 : Fin 1) (1 : ℝ))
      (fun _ : Fin 1 => fun _ : Fin 1 => (0 : ℝ)) = none := by
  have hz : (WithLp.linearEquiv 2 ℝ (Fin 1 → ℝ)).symm.toLinearMap
      ((fun _ : Fin 1 => fun _ : Fin 1 => (0 : ℝ)) 0) = 0 := by
    have h0 : ((fun _ : Fin 1 => fun _ : Fin 1 => (0 : ℝ)) 0) = (0 : Fin 1 → ℝ) := rfl
    rw [h0, map_zero]
  constructor
  · exact ⟨0, by rw [hz, norm_zero]⟩
  · simp only [compute_logits]
    rw [dif_neg]
    push_neg
    exact ⟨0, by rw [hz, norm_zero]⟩

/-- C6 (amended): the normalization at line 122 has no zero-norm guard: it
divides by zero exactly on batches containing a zero-norm image embedding,
and only batches whose image embeddings all have nonzero norm avoid the
division by zero. -/
theorem normalization_divides_by_zero_iff {B C dp d : Nat}
    (visual_projection : (Fin dp → ℝ) →ₗ[ℝ] EuclideanSpace ℝ (Fin d))
    (logit_scale : ℝ)
    (text_embeds : Fin C → EuclideanSpace ℝ (Fin d))
    (pooled_features : Fin B → (Fin dp → ℝ)) :
    compute_logits visual_projection logit_scale text_embeds pooled_features = none ↔
      normalizationDividesByZero visual_projection pooled_features := by
  simp only [compute_logits, normalizationDividesByZero]
  by_cases h : ∀ b, ‖visual_projection (pooled_features b)‖ ≠ 0
  · rw [dif_pos h]
    constructor
    · intro hc
      exact absurd hc (Option.some_ne_none _)
    · rintro ⟨b, hb⟩
      exact absurd hb (h b)
  · rw [dif_neg h]
    push_neg at h
    exact ⟨fun _ => h, fun _ => rfl⟩

/-- C7 counterexample: with `hidden_size` unsupplied and a feature extractor
whose config lacks the `hidden_sizes` attribute, construction (`__init__`)
succeeds without raising, and the failure occurs later, inside
`load_models`, as an `AttributeError` — not as a `ConfigurationError` at
construction time. -/
theorem hidden_size_failure_counterexample :
    daweInit none 10 3 =
      Except.ok { hidden_size := none, max_steps := 10, save_interval := 3 } ∧
    inferHiddenSize { hidden_size := none, max_steps := 10, save_interval := 3 }
        { hidden_sizes := none } = Except.error PyError.attributeError ∧
    PyError.attributeError ≠ PyError.configurationError :=
  ⟨rfl, rfl, by decide⟩

/-- C7 (amended): construction never fails, for any `hidden_size`; when the
inference of a missing `hidden_size` from the feature extractor fails, it
fails inside `load_models` with an `AttributeError` (config without a
`hidden_sizes` attribute) or an `IndexError` (empty `hidden_sizes`), never
with a `ConfigurationError`, and only when `hidden_size` was not supplied. -/
theorem hidden_size_error_characterization (hs : Option Nat)
    (cfg : FeatureExtractorConfig) (ms si : Nat) :
    (daweInit hs ms si).isOk = true ∧
    ∀ e, inferHiddenSize { hidden_size := hs, max_steps := ms, save_interval := si }
        cfg = Except.error e →
      (e = PyError.attributeError ∨ e = PyError.indexError) ∧ hs = none := by
  refine ⟨rfl, ?_⟩
  intro e he
  cases hs with
  | some h => simp [inferHiddenSize] at he
  | none =>
    cases hcfg : cfg.hidden_sizes with
    | none =>
      simp only [inferHiddenSize, hcfg] at he
      cases he
      exact ⟨Or.inl rfl, rfl⟩
    | some l =>
      cases l with
      | nil =>
        simp only [inferHiddenSize, hcfg] at he
        cases he
        exact ⟨Or.inr rfl, rfl⟩
      | cons a t => simp [inferHiddenSize, hcfg] at he

/-- C7 witness: a concrete missing-attribute configuration, where the
construction succeeds and the later inference failure is an
`AttributeError`. -/
theorem hidden_size_error_characterization_witness :
    (daweInit none 10 3).isOk = true ∧
    ((PyError.attributeError = PyError.attributeError ∨
        PyError.attributeError = PyError.indexError) ∧ (none : Option Nat) = none) := by
  have h := hidden_size_error_characterization none { hidden_sizes := none } 10 3
  exact ⟨h.1, h.2 PyError.attributeError rfl⟩

theorem optimizerStep_frame (update : String → ℚ → ℚ) :
    ∀ (selected : List String) (params : List Param) (i : Nat) (p : Param),
      params[i]? = some p → p.name ∉ selected →
      (optimizerStep update selected params)[i]? = some p := by
  intro selected
  induction selected with
  | nil =>
    intro params i p hp _
    simpa [optimizerStep] using hp
  | cons nm rest ih =>
    intro params i p hp hnot
    have hstep : optimizerStep update (nm :: rest) params =
        optimizerStep update rest
          (params.map (fun q =>
            if q.name = nm then { q with value := update q.name q.value } else q)) := by
      simp [optimizerStep, List.foldl_cons]
    have hmap : (params.map (fun q =>
        if q.name = nm then { q with value := update q.name q.value } else q))[i]? =
        some p := by
      rw [List.getElem?_map, hp]
      have hne : p.name ≠ nm := fun h => hnot (h ▸ List.mem_cons_self nm rest)
      simp [hne]
    rw [hstep]
    exact ih _ i p hmap (fun hmem => hnot (List.mem_cons_of_mem nm hmem))

theorem runOptimizer_frame (update : Nat → String → ℚ → ℚ) (selected : List String)
    (params : List Param) (i : Nat) (p : Param)
    (hp : params[i]? = some p) (hnot : p.name ∉ selected) :
    ∀ n, (runOptimizer update selected params n)[i]? = some p := by
  intro n
  induction n with
  | zero => simpa [runOptimizer] using hp
  | succ k ihk =>
    simp only [runOptimizer]
    exact optimizerStep_frame (update k) selected _ i p ihk hnot

theorem not_mem_optimizerParams_of_frozen (params : List Param)
    (hnodup : (params.map Param.name).Nodup) (p : Param) (hp : p ∈ params)
    (hfrozen : p.requires_grad = false) : p.name ∉ optimizerParams params := by
  intro hmem
  simp only [optimizerParams, List.mem_map] at hmem
  obtain ⟨q, hq, hqname⟩ := hmem
  rw [List.mem_filter] at hq
  have hqp : q = p := List.inj_on_of_nodup_map hnodup hq.1 hp hqname
  rw [hqp, hfrozen] at hq
  exact Bool.false_ne_true hq.2

/-- C8: the optimizer of the adaptation loop is constructed over exactly the
trainable parameters — the mixing coefficients and the gating network — and
any number of optimizer steps leaves every frozen parameter (the base-model,
expert-model and projection weights) unchanged. -/
theorem dawe_optimizer_updates_only_trainable
    (base expert projection coeff gate : List (String × ℚ))
    (update : Nat → String → ℚ → ℚ)
    (hnodup : ((daweModelParameters base expert projection coeff gate).map
      Param.name).Nodup) :
    optimizerParams (daweModelParameters base expert projection coeff gate) =
      (coeff ++ gate).map Prod.fst ∧
    ∀ (n i : Nat) (p : Param),
      (daweModelParameters base expert projection coeff gate)[i]? = some p →
      p.requires_grad = false →
      (runOptimizer update
          (optimizerParams (daweModelParameters base expert projection coeff gate))
          (daweModelParameters base expert projection coeff gate) n)[i]? =
        some p := by
  constructor
  · simp [optimizerParams, daweModelParameters, List.filter_append, List.filter_map,
      List.map_map, Function.comp_def]
  · intro n i p hp hfrozen
    exact runOptimizer_frame update _ _ i p hp
      (not_mem_optimizerParams_of_frozen _ hnodup p (List.getElem?_mem hp)
        hfrozen) n

/-- C8 witness: a concrete inventory with one frozen base weight, one frozen
expert weight, one frozen projection weight, one mixing coefficient and one
gating weight; the optimizer selects exactly the coefficient and the gating
weight, and the frozen base weight is unchanged after three steps. -/
theorem dawe_optimizer_updates_only_trainable_witness :
    ((daweModelParameters [("vision_model.weight", (1 : ℚ))]
        [("expert0.weight", 2)] [("visual_projection.weight", 3)]
        [("task_coefficients", 4)] [("gate.0.weight", 5)]).map Param.name).Nodup ∧
    optimizerParams (daweModelParameters [("vision_model.weight", (1 : ℚ))]
        [("expert0.weight", 2)] [("visual_projection.weight", 3)]
        [("task_coefficients", 4)] [("gate.0.weight", 5)]) =
      ["task_coefficients", "gate.0.weight"] ∧
    (runOptimizer (fun _ _ v => v + 1)
        (optimizerParams (daweModelParameters [("vision_model.weight", (1 : ℚ))]
          [("expert0.weight", 2)] [("visual_projection.weight", 3)]
          [("task_coefficients", 4)] [("gate.0.weight", 5)]))
        (daweModelParameters [("vision_model.weight", (1 : ℚ))]
          [("expert0.weight", 2)] [("visual_projection.weight", 3)]
          [("task_coefficients", 4)] [("gate.0.weight", 5)]) 3)[0]? =
      some (Param.mk "vision_model.weight" 1 false) := by
  have hnodup : ((daweModelParameters [("vision_model.weight", (1 : ℚ))]
      [("expert0.weight", 2)] [("visual_projection.weight", 3)]
      [("task_coefficients", 4)] [("gate.0.weight", 5)]).map Param.name).Nodup := by
    simp [daweModelParameters]
  have h := dawe_optimizer_updates_only_trainable [("vision_model.weight", (1 : ℚ))]
    [("expert0.weight", 2)] [("visual_projection.weight", 3)]
    [("task_coefficients", 4)] [("gate.0.weight", 5)] (fun _ _ v => v + 1) hnodup
  exact ⟨hnodup, h.1.trans rfl, h.2 3 0 _ rfl rfl⟩

theorem lookupWeights_store_same {W : Type} (m : List (String × W)) (t : String)
    (w : W) : lookupWeights (storeWeights m t w) t = some w := by
  simp [lookupWeights, storeWeights]

theorem lookupWeights_store_other {W : Type} (m : List (String × W)) (t u : String)
    (w : W) (hne : t ≠ u) :
    lookupWeights (storeWeights m u w) t = lookupWeights m t := by
  have hhead : ((u, w).1 == t) = false := by
    simp [Ne.symm hne]
  simp only [lookupWeights, storeWeights, List.find?_cons, hhead, cond_false]
  have : ∀ (l : List (String × W)),
      (l.filter (fun p => p.1 != u)).find? (fun p => p.1 == t) =
        l.find? (fun p => p.1 == t) := by
    intro l
    induction l with
    | nil => rfl
    | cons kv rest ihl =>
      by_cases hk : kv.1 = u
      · have h1 : (kv.1 != u) = false := by simp [hk]
        have h2 : (kv.1 == t) = false := by simp [hk, Ne.symm hne]
        simp [List.filter_cons, h1, List.find?_cons, h2, ihl]
      · have h1 : (kv.1 != u) = true := by simp [hk]
        by_cases hkt : kv.1 = t
        · simp [List.filter_cons, h1, List.find?_cons, hkt, hne]
        · have h2 : (kv.1 == t) = false := by simp [hkt]
          simp [List.filter_cons, h1, List.find?_cons, h2, ihl]
  rw [this]

theorem lookup_after_adaptationStart_exists {W : Type} (computeHead : String → W)
    (cache_dir pretrained_path : String) :
    ∀ (tasks : List String) (st : AdaState W) (t : String),
      (t ∈ tasks ∨ ∃ w, lookupWeights st.zeroshot_weights t = some w) →
      ∃ w, lookupWeights
          (onTestTimeAdaptationStart computeHead cache_dir pretrained_path tasks
            st).zeroshot_weights t = some w := by
  intro tasks
  induction tasks with
  | nil =>
    intro st t ht
    rcases ht with h | h
    · exact absurd h (List.not_mem_nil t)
    · simpa [onTestTimeAdaptationStart] using h
  | cons u rest ih =>
    intro st t ht
    rw [onTestTimeAdaptationStart, List.foldl_cons]
    apply ih (adaptationStartTask computeHead cache_dir pretrained_path st u) t
    by_cases htu : t = u
    · right
      subst htu
      rcases hE : buildZeroshotHead computeHead st.fs cache_dir pretrained_path t
        with ⟨w, fs', invoked⟩
      exact ⟨w, by simp [adaptationStartTask, hE, lookupWeights_store_same]⟩
    · rcases ht with h | h
      · rcases List.mem_cons.mp h with h1 | h2
        · exact absurd h1 htu
        · exact Or.inl h2
      · right
        obtain ⟨w0, hw0⟩ := h
        rcases hE : buildZeroshotHead computeHead st.fs cache_dir pretrained_path u
          with ⟨w, fs', invoked⟩
        exact ⟨w0, by
          simp [adaptationStartTask, hE, lookupWeights_store_other _ _ _ _ htu, hw0]⟩

theorem repeatedLookups_const {W : Type} (st : AdaState W) (t : String) (w : W)
    (hw : lookupWeights st.zeroshot_weights t = some w) :
    ∀ n, repeatedLookups st t n = (List.replicate n (some w), st) := by
  intro n
  induction n with
  | zero => rfl
  | succ k ihk =>
    simp [repeatedLookups, computeLogitsHeadLookup, hw, ihk, List.replicate_succ]

/-- C9: once `on_test_time_adaptation_start` has built the head of a task,
every subsequent lookup of that task's head (the read `compute_logits`
performs) returns the identical cached value, and an arbitrary number of
lookups leaves the whole algorithm state — in particular the count of text
encoder invocations — unchanged. -/
theorem zeroshot_weights_memoized {W : Type} (computeHead : String → W)
    (cache_dir pretrained_path : String) (tasks : List String) (st0 : AdaState W)
    (t : String) (ht : t ∈ tasks) :
    ∃ w, ∀ n,
      repeatedLookups
          (onTestTimeAdaptationStart computeHead cache_dir pretrained_path tasks st0)
          t n =
        (List.replicate n (some w),
          onTestTimeAdaptationStart computeHead cache_dir pretrained_path tasks
            st0) := by
  obtain ⟨w, hw⟩ := lookup_after_adaptationStart_exists computeHead cache_dir
    pretrained_path tasks st0 t (Or.inl ht)
  exact ⟨w, repeatedLookups_const _ t w hw⟩

/-- C9 witness: a concrete two-task adaptation start, after which every
lookup of the first task's head returns the same cached value and leaves
the state untouched. -/
theorem zeroshot_weights_memoized_witness :
    "svhn" ∈ ["svhn", "mnist"] ∧
    ∃ w, ∀ n,
      repeatedLookups
          (onTestTimeAdaptationStart (fun _ => (1 : ℕ)) "cache" "clip"
            ["svhn", "mnist"] (AdaState.mk [] ⟨[]⟩ 0)) "svhn" n =
        (List.replicate n (some w),
          onTestTimeAdaptationStart (fun _ => (1 : ℕ)) "cache" "clip"
            ["svhn", "mnist"] (AdaState.mk [] ⟨[]⟩ 0)) :=
  ⟨by decide,
    zeroshot_weights_memoized (fun _ => (1 : ℕ)) "cache" "clip" ["svhn", "mnist"]
      (AdaState.mk [] ⟨[]⟩ 0) "svhn" (by decide)⟩

/-- C10: `zeroshot_weights` is a class-level attribute of
`CLIPTaskWiseAdaMergingAlgorithm`, so every instance resolves it to the same
mutable dict: a head stored through one instance is visible through every
other instance, and a store through a second instance overwrites what the
first instance sees — the runs do not own separate caches. -/
theorem zeroshot_weights_shared_across_instances {W : Type} (st : ClassState W)
    (inst1 inst2 : Nat) (task : String) (w w' : W)
    (h1 : st.instanceAttr inst1 = none) (h2 : st.instanceAttr inst2 = none) :
    readHead (storeHead st inst1 task w) inst2 task = some w ∧
    readHead (storeHead (storeHead st inst1 task w) inst2 task w') inst1 task =
      some w' := by
  constructor
  · simp [readHead, storeHead, resolveZeroshotWeightsAttr, h1, h2, PyHeap.setItem,
      lookupWeights_store_same]
  · simp [readHead, storeHead, resolveZeroshotWeightsAttr, h1, h2, PyHeap.setItem,
      lookupWeights_store_same]

/-- C10 witness: starting from the freshly created class, instance 0 stores
a head, instance 1 sees it, and instance 1's store overwrites what
instance 0 reads. -/
theorem zeroshot_weights_shared_across_instances_witness :
    readHead (storeHead (classCreationState ℕ) 0 "svhn" 1) 1 "svhn" = some 1 ∧
    readHead (storeHead (storeHead (classCreationState ℕ) 0 "svhn" 1) 1 "svhn" 2)
        0 "svhn" = some 2 :=
  zeroshot_weights_shared_across_instances (classCreationState ℕ) 0 1 "svhn" 1 2
    rfl rfl

end FusionBench
